import Mathlib

/-!
Verification of the Water-Tank-Management repository.

The Arduino sketch (appended to run_automation.sh) provides the sensor
adapter `getLevelPercent` and the actuator routine `controlPump`; the
frontend provides `loadCredentials` / `persistCredentials` (lib/api.ts)
and `toggleResolved` (components/Issues.tsx).  The Python control core
described by the design document (hysteresis pump controller, consumption
ledger, depletion predictor) is not present in the sources, so those
components are modelled from the specification text.

Machine floats of the sketch are modelled over the rationals; the
distance returned by sonar.ping_cm is an unsigned integer number of
centimetres, modelled as a natural number, with 0 encoding a failed ping
(no echo).
-/

namespace WaterTank

/-- Constant `MIN_DISTANCE` of the sketch (cm). -/
def MIN_DISTANCE : ℕ := 4

/-- Constant `MAX_DISTANCE` of the sketch (cm). -/
def MAX_DISTANCE : ℕ := 11

/-- Shallow embedding of the sketch function `getLevelPercent`.
`distance` is the value of `sonar.ping_cm()`; the sketch returns
`0` when `distance == 0` (no echo), `100` when `distance <= MIN_DISTANCE`,
`0` when `distance >= MAX_DISTANCE`, and otherwise
`((float)(MAX_DISTANCE - distance) / (MAX_DISTANCE - MIN_DISTANCE)) * 100.0`. -/
def getLevelPercent (distance : ℕ) : ℚ :=
  if distance = 0 then 0
  else if distance ≤ MIN_DISTANCE then 100
  else if MAX_DISTANCE ≤ distance then 0
  else ((MAX_DISTANCE - distance : ℕ) : ℚ) / ((MAX_DISTANCE - MIN_DISTANCE : ℕ) : ℚ) * 100

/-- Constant `RELAY_ACTIVE_HIGH` of the sketch. -/
def RELAY_ACTIVE_HIGH : Bool := true

/-- The actuator-side state touched by `controlPump`: the relay output
pin, the LED pin, and the recorded `prev_pump_state`. -/
structure ActuatorState where
  relay : Bool
  led : Bool
  prev_pump_state : ℕ
deriving DecidableEq, Repr

/-- Shallow embedding of the sketch function `controlPump`.
On `0` it drives the relay inactive and records state 0 (the LED is left
untouched); on `1` it drives the relay active, lights the LED and records
state 1; any other byte is ignored. -/
def controlPump (cmd : Char) (s : ActuatorState) : ActuatorState :=
  if cmd = '0' then
    { s with relay := !RELAY_ACTIVE_HIGH, prev_pump_state := 0 }
  else if cmd = '1' then
    { s with relay := RELAY_ACTIVE_HIGH, led := true, prev_pump_state := 1 }
  else s

/-- Helper: the level is never negative. -/
lemma getLevelPercent_nonneg (d : ℕ) : 0 ≤ getLevelPercent d := by
  unfold getLevelPercent
  split_ifs with h0 h1 h2
  · norm_num
  · norm_num
  · norm_num
  · positivity

/-- Helper: the level never exceeds 100. -/
lemma getLevelPercent_le_100 (d : ℕ) : getLevelPercent d ≤ 100 := by
  unfold getLevelPercent
  split_ifs with h0 h1 h2
  · norm_num
  · norm_num
  · norm_num
  · have hlt : MAX_DISTANCE - d ≤ MAX_DISTANCE - MIN_DISTANCE := by
      unfold MIN_DISTANCE MAX_DISTANCE at *
      omega
    have hc : ((MAX_DISTANCE - d : ℕ) : ℚ) ≤ ((MAX_DISTANCE - MIN_DISTANCE : ℕ) : ℚ) := by
      exact_mod_cast hlt
    have hpos : (0 : ℚ) < ((MAX_DISTANCE - MIN_DISTANCE : ℕ) : ℚ) := by
      unfold MIN_DISTANCE MAX_DISTANCE
      norm_num
    calc ((MAX_DISTANCE - d : ℕ) : ℚ) / ((MAX_DISTANCE - MIN_DISTANCE : ℕ) : ℚ) * 100
        ≤ ((MAX_DISTANCE - MIN_DISTANCE : ℕ) : ℚ) / ((MAX_DISTANCE - MIN_DISTANCE : ℕ) : ℚ) * 100 := by
          gcongr
      _ = 100 := by
          rw [div_self (ne_of_gt hpos)]
          ring

/-- Helper: beyond the far limit the reported level is 0. -/
lemma getLevelPercent_far (d : ℕ) (h : MAX_DISTANCE ≤ d) : getLevelPercent d = 0 := by
  unfold getLevelPercent
  unfold MAX_DISTANCE at h
  split_ifs with h0 h1 h2
  · rfl
  · exfalso
    unfold MIN_DISTANCE at h1
    omega
  · rfl
  · exfalso
    unfold MAX_DISTANCE at h2
    omega

/-- Helper: a genuine echo at or inside the near limit reports 100. -/
lemma getLevelPercent_near (d : ℕ) (h1 : 1 ≤ d) (h2 : d ≤ MIN_DISTANCE) :
    getLevelPercent d = 100 := by
  unfold getLevelPercent
  split_ifs with g0
  · exfalso
    omega
  · rfl

/-- C1: the claim says a missing raw read (sonar ping returns 0) is never
fed onward as level 0; the sketch code, however, returns 0 from
`getLevelPercent` exactly when the ping returns 0, so the dropout is
reported as an empty tank.  This theorem evaluates the code at the
failing input. -/
theorem dropout_reported_as_empty : getLevelPercent 0 = 0 := by
  rfl

/-- C4 counterexample: the claim states that every distance at or below
`MIN_DISTANCE` yields 100, but the dropout sentinel distance 0 is at or
below `MIN_DISTANCE` and yields 0. -/
theorem level_range_claim_cex :
    0 ≤ MIN_DISTANCE ∧ getLevelPercent 0 ≠ 100 := by
  constructor
  · exact Nat.zero_le _
  · norm_num [getLevelPercent]

/-- C4 (amended): the output of `getLevelPercent` is always in [0, 100];
a genuine echo (distance at least 1) at or below `MIN_DISTANCE` yields
100; the no-echo sentinel 0 yields 0; a distance at or beyond
`MAX_DISTANCE` yields 0; and an intermediate distance yields the linear
interpolation, which stays strictly inside the range. -/
theorem getLevelPercent_range :
    ∀ d : ℕ,
      (0 ≤ getLevelPercent d ∧ getLevelPercent d ≤ 100)
      ∧ (1 ≤ d ∧ d ≤ MIN_DISTANCE → getLevelPercent d = 100)
      ∧ (d = 0 → getLevelPercent d = 0)
      ∧ (MAX_DISTANCE ≤ d → getLevelPercent d = 0)
      ∧ (MIN_DISTANCE < d ∧ d < MAX_DISTANCE →
          getLevelPercent d * (MAX_DISTANCE - MIN_DISTANCE : ℕ)
              = ((MAX_DISTANCE - d : ℕ) : ℚ) * 100
          ∧ 0 < getLevelPercent d ∧ getLevelPercent d < 100) := by
  intro d
  refine ⟨⟨getLevelPercent_nonneg d, getLevelPercent_le_100 d⟩, ?_, ?_, ?_, ?_⟩
  · rintro ⟨h1, h2⟩
    exact getLevelPercent_near d h1 h2
  · rintro rfl
    rfl
  · intro h
    exact getLevelPercent_far d h
  · rintro ⟨h1, h2⟩
    simp only [MIN_DISTANCE] at h1
    simp only [MAX_DISTANCE] at h2
    interval_cases d <;>
      refine ⟨by norm_num [getLevelPercent, MIN_DISTANCE, MAX_DISTANCE], ?_, ?_⟩ <;>
      norm_num [getLevelPercent, MIN_DISTANCE, MAX_DISTANCE]

/-- C7: `controlPump` is idempotent for the two recognised commands:
sending the same byte twice leaves the relay, the LED and the recorded
pump state exactly as sending it once. -/
theorem controlPump_idempotent (cmd : Char) (s : ActuatorState)
    (h : cmd = '0' ∨ cmd = '1') :
    controlPump cmd (controlPump cmd s) = controlPump cmd s := by
  rcases h with h | h <;> subst h <;> rfl

/-- Witness for C7: the idempotence theorem applied to the ON command and
a concrete actuator state. -/
theorem controlPump_idempotent_witness :
    controlPump '1' (controlPump '1' ⟨false, false, 0⟩)
      = controlPump '1' ⟨false, false, 0⟩ :=
  controlPump_idempotent '1' ⟨false, false, 0⟩ (Or.inr rfl)

/-- C8: for genuine echoes the sensor mapping is antitone: a larger
measured distance never reports a higher water level. -/
theorem getLevelPercent_antitone (d1 d2 : ℕ) (h1 : 1 ≤ d1) (h12 : d1 ≤ d2) :
    getLevelPercent d2 ≤ getLevelPercent d1 := by
  rcases Nat.lt_or_ge d2 MAX_DISTANCE with hfar | hfar
  · rcases le_or_lt d1 MIN_DISTANCE with hnear | hnear
    · rw [getLevelPercent_near d1 h1 hnear]
      exact getLevelPercent_le_100 d2
    · have hb1 : MIN_DISTANCE < d1 := hnear
      have hb2 : d2 < MAX_DISTANCE := hfar
      simp only [MIN_DISTANCE] at hb1
      simp only [MAX_DISTANCE] at hb2
      have e1 : 5 ≤ d1 := by omega
      have e2 : d2 ≤ 10 := by omega
      have e3 : d1 ≤ 10 := by omega
      have e4 : 5 ≤ d2 := by omega
      interval_cases d1 <;> interval_cases d2 <;>
        norm_num [getLevelPercent, MIN_DISTANCE, MAX_DISTANCE]
  · rw [getLevelPercent_far d2 hfar]
    exact getLevelPercent_nonneg d1

/-- Witness for C8: the antitonicity theorem applied to the concrete
distances 1 and 11. -/
theorem getLevelPercent_antitone_witness :
    getLevelPercent 11 ≤ getLevelPercent 1 :=
  getLevelPercent_antitone 1 11 (by norm_num) (by norm_num)

/-- Modelled from the spec: the two pump states of the hysteresis
controller (the controller source itself is not in the repository
snapshot; only the design document describes it). -/
inductive PumpSt where
  | Off
  | On
deriving DecidableEq, Repr

/-- Modelled from the spec: the immutable controller parameters. -/
structure ControllerConfig where
  on_threshold_percent : ℚ
  off_threshold_percent : ℚ
  hard_off_percent : ℚ
  min_run_seconds : ℕ
  min_off_seconds : ℕ
deriving DecidableEq, Repr

/-- Modelled from the spec: the mutable controller state, the pump state
plus the timestamp of the last transition. -/
structure ControllerState where
  pump : PumpSt
  since : ℕ
deriving DecidableEq, Repr

/-- Modelled from the spec: one tick of the hysteresis pump controller,
evaluated on the smoothed level `L` at time `t`.  Off goes On iff
`L ≤ on_threshold_percent` and time-in-state is at least
`min_off_seconds`; On goes Off iff `L ≥ hard_off_percent` (the safety
override, which bypasses the minimum-run timer) or `L ≥
off_threshold_percent` with time-in-state at least `min_run_seconds`;
otherwise the state is unchanged. -/
def controllerStep (cfg : ControllerConfig) (s : ControllerState) (L : ℚ) (t : ℕ) :
    ControllerState :=
  match s.pump with
  | .Off =>
      if L ≤ cfg.on_threshold_percent ∧ cfg.min_off_seconds ≤ t - s.since then
        ⟨.On, t⟩
      else s
  | .On =>
      if cfg.hard_off_percent ≤ L then ⟨.Off, t⟩
      else if cfg.off_threshold_percent ≤ L ∧ cfg.min_run_seconds ≤ t - s.since then
        ⟨.Off, t⟩
      else s

/-- Modelled from the spec: a tick also re-asserts the (possibly
unchanged) pump state on the actuator; the Boolean is the argument of
the `set(on)` call issued this tick. -/
def controllerTick (cfg : ControllerConfig) (s : ControllerState) (L : ℚ) (t : ℕ) :
    ControllerState × Bool :=
  let s2 := controllerStep cfg s L t
  (s2, match s2.pump with | .On => true | .Off => false)

/-- C2: once On, the controller never reaches Off before
`min_run_seconds` of time-in-state have elapsed, with the single
exception that a level at or above `hard_off_percent` forces Off
immediately, bypassing the timer. -/
theorem min_run_invariant :
    ∀ (cfg : ControllerConfig) (s : ControllerState) (L : ℚ) (t : ℕ),
      (s.pump = .On → t - s.since < cfg.min_run_seconds →
          L < cfg.hard_off_percent → (controllerStep cfg s L t).pump = .On)
      ∧ (s.pump = .On → cfg.hard_off_percent ≤ L →
          controllerStep cfg s L t = ⟨.Off, t⟩) := by
  intro cfg s L t
  obtain ⟨p, since⟩ := s
  cases p with
  | Off =>
      refine ⟨fun h => absurd h (by simp), fun h => absurd h (by simp)⟩
  | On =>
      constructor
      · intro _ hT hL
        simp only [controllerStep]
        rw [if_neg (not_le_of_lt hL)]
        rw [if_neg (by
          rintro ⟨-, hrun⟩
          exact absurd hrun (not_le_of_lt hT))]
      · intro _ hL
        simp only [controllerStep]
        rw [if_pos hL]

/-- C3 counterexample: with thresholds on=20, off=60, hard-off=95,
min-run=60 and min-off=30, a controller that turned On at time 0 and
sees level 100 at time 2 transitions to Off even though the claimed
condition `(L ≥ off ∨ L ≥ hard-off) ∧ time-in-state ≥ min-run` is false
(2 seconds have elapsed, fewer than 60): the transition rule as stated
omits the hard-off bypass of the minimum-run timer. -/
theorem transition_rule_claim_cex :
    (controllerStep ⟨20, 60, 95, 60, 30⟩ ⟨.On, 0⟩ 100 2).pump = .Off
      ∧ ¬(((60 : ℚ) ≤ 100 ∨ (95 : ℚ) ≤ 100) ∧ 60 ≤ 2 - 0) := by
  constructor
  · rfl
  · rintro ⟨-, h⟩
    omega

/-- C3 (amended): the transition structure of the controller, with the
hard-off bypass made explicit: Off goes On iff `L ≤ on_threshold` and
time-in-state is at least `min_off_seconds`; On goes Off iff
`L ≥ hard_off_percent`, or `L ≥ off_threshold` with time-in-state at
least `min_run_seconds`; when the constraints are unmet the state is
unchanged, and every tick re-asserts the resulting pump state on the
actuator. -/
theorem transition_rule_characterisation :
    ∀ (cfg : ControllerConfig) (s : ControllerState) (L : ℚ) (t : ℕ),
      (s.pump = .Off →
        ((controllerStep cfg s L t = ⟨.On, t⟩
            ↔ (L ≤ cfg.on_threshold_percent ∧ cfg.min_off_seconds ≤ t - s.since))
          ∧ (¬(L ≤ cfg.on_threshold_percent ∧ cfg.min_off_seconds ≤ t - s.since) →
              controllerStep cfg s L t = s)))
      ∧ (s.pump = .On →
        ((controllerStep cfg s L t = ⟨.Off, t⟩
            ↔ (cfg.hard_off_percent ≤ L
                ∨ (cfg.off_threshold_percent ≤ L ∧ cfg.min_run_seconds ≤ t - s.since)))
          ∧ (¬(cfg.hard_off_percent ≤ L
                ∨ (cfg.off_threshold_percent ≤ L ∧ cfg.min_run_seconds ≤ t - s.since)) →
              controllerStep cfg s L t = s)))
      ∧ (controllerTick cfg s L t).1 = controllerStep cfg s L t
      ∧ ((controllerTick cfg s L t).2 = true ↔ (controllerStep cfg s L t).pump = .On) := by
  intro cfg s L t
  obtain ⟨p, since⟩ := s
  refine ⟨?_, ?_, rfl, ?_⟩
  · rintro rfl
    simp only [controllerStep]
    constructor
    · constructor
      · intro h
        by_contra hc
        rw [if_neg hc] at h
        exact PumpSt.noConfusion (congrArg ControllerState.pump h)
      · intro h
        rw [if_pos h]
    · intro h
      rw [if_neg h]
  · rintro rfl
    simp only [controllerStep]
    constructor
    · constructor
      · intro h
        by_contra hc
        push_neg at hc
        obtain ⟨h1, h2⟩ := hc
        rw [if_neg (not_le_of_lt h1)] at h
        rw [if_neg (by
          rintro ⟨ha, hb⟩
          exact absurd hb (not_le_of_lt (h2 ha)))] at h
        exact PumpSt.noConfusion (congrArg ControllerState.pump h)
      · rintro (h | ⟨ha, hb⟩)
        · rw [if_pos h]
        · by_cases hh : cfg.hard_off_percent ≤ L
          · rw [if_pos hh]
          · rw [if_neg hh, if_pos ⟨ha, hb⟩]
    · intro h
      push_neg at h
      obtain ⟨h1, h2⟩ := h
      rw [if_neg (not_le_of_lt h1)]
      rw [if_neg (by
        rintro ⟨ha, hb⟩
        exact absurd hb (not_le_of_lt (h2 ha)))]
  · unfold controllerTick
    cases hp : (controllerStep cfg ⟨p, since⟩ L t).pump <;> simp [hp]

/-- Modelled from the spec: the per-tick consumption attribution of the
consumption tracker (the analytics source is not in the repository
snapshot).  On a tick where the pump is Off, the positive part of
`previous smoothed − current smoothed` is attributed; a negative delta,
or a tick with the pump On, attributes zero. -/
def consumptionDelta (pump : PumpSt) (prev curr : ℚ) : ℚ :=
  if pump = .Off ∧ 0 < prev - curr then prev - curr else 0

/-- Modelled from the spec: one tick of the ledger adds the attributed
consumption to the running day-total. -/
def ledgerTick (pump : PumpSt) (prev curr : ℚ) (dayTotal : ℚ) : ℚ :=
  dayTotal + consumptionDelta pump prev curr

/-- Modelled from the spec: a run of ledger ticks, each given as
(pump state, previous smoothed level, current smoothed level). -/
def ledgerRun (ticks : List (PumpSt × ℚ × ℚ)) (dayTotal : ℚ) : ℚ :=
  ticks.foldl (fun acc tk => ledgerTick tk.1 tk.2.1 tk.2.2 acc) dayTotal

/-- Helper: a single ledger tick never decreases the day-total. -/
lemma ledgerTick_mono (pump : PumpSt) (prev curr dayTotal : ℚ) :
    dayTotal ≤ ledgerTick pump prev curr dayTotal := by
  unfold ledgerTick consumptionDelta
  split_ifs with h
  · linarith [h.2]
  · simp

/-- C5: the day-total of the consumption ledger is monotonically
non-decreasing over any sequence of ticks, and a tick with the pump Off
whose current smoothed level exceeds the previous one attributes zero
consumption: the ledger is never decremented. -/
theorem ledger_monotone :
    ∀ (ticks : List (PumpSt × ℚ × ℚ)) (dayTotal prev curr : ℚ) (pump : PumpSt),
      dayTotal ≤ ledgerRun ticks dayTotal
      ∧ dayTotal ≤ ledgerTick pump prev curr dayTotal
      ∧ (pump = .Off → prev < curr → consumptionDelta pump prev curr = 0)
      ∧ consumptionDelta .Off 40 41 = 0 := by
  intro ticks dayTotal prev curr pump
  refine ⟨?_, ledgerTick_mono pump prev curr dayTotal, ?_, by norm_num [consumptionDelta]⟩
  · induction ticks generalizing dayTotal with
    | nil => exact le_refl _
    | cons tk rest ih =>
        calc dayTotal ≤ ledgerTick tk.1 tk.2.1 tk.2.2 dayTotal :=
              ledgerTick_mono tk.1 tk.2.1 tk.2.2 dayTotal
          _ ≤ ledgerRun rest (ledgerTick tk.1 tk.2.1 tk.2.2 dayTotal) := ih _
          _ = ledgerRun (tk :: rest) dayTotal := rfl
  · intro _ hlt
    unfold consumptionDelta
    rw [if_neg (by
      rintro ⟨-, hpos⟩
      linarith)]

/-- Modelled from the spec: the depletion predictor.  The rolling
history holds the most recent daily consumption figures; the prediction
divides the current level equivalent by the average of the last
min(7, available) days, and is undefined (insufficient data) when no
day of history exists or that average is zero. -/
def predictDaysRemaining (history : List ℚ) (currentLevel : ℚ) : Option ℚ :=
  let window := history.take 7
  if window.length = 0 then none
  else
    let avg := window.sum / (window.length : ℚ)
    if avg = 0 then none else some (currentLevel / avg)

/-- C6: the prediction equals the current level divided by the average
of the last min(7, available) days; with exactly one historical day of
5% consumption and a current level of 50% it yields 10 days; and it is
undefined exactly when the history is empty or the window average is
zero. -/
theorem prediction_characterisation :
    ∀ (history : List ℚ) (currentLevel : ℚ),
      (predictDaysRemaining [] currentLevel = none)
      ∧ (predictDaysRemaining [5] 50 = some 10)
      ∧ (history ≠ [] → (history.take 7).sum / ((history.take 7).length : ℚ) ≠ 0 →
          predictDaysRemaining history currentLevel
            = some (currentLevel / ((history.take 7).sum / ((history.take 7).length : ℚ))))
      ∧ (predictDaysRemaining history currentLevel = none
          ↔ (history = [] ∨ (history.take 7).sum / ((history.take 7).length : ℚ) = 0)) := by
  intro history currentLevel
  refine ⟨rfl, by norm_num [predictDaysRemaining], ?_, ?_⟩
  · intro hne havg
    unfold predictDaysRemaining
    rw [if_neg (by
      simp only [List.length_eq_zero]
      intro h
      exact hne (by
        cases history with
        | nil => rfl
        | cons a l => simp at h))]
    rw [if_neg havg]
  · unfold predictDaysRemaining
    by_cases hne : history = []
    · subst hne
      simp
    · have hlen : (history.take 7).length ≠ 0 := by
        simp only [ne_eq, List.length_eq_zero]
        cases history with
        | nil => exact absurd rfl hne
        | cons a l => simp
      rw [if_neg hlen]
      by_cases havg : (history.take 7).sum / ((history.take 7).length : ℚ) = 0
      · rw [if_pos havg]
        exact ⟨fun _ => Or.inr havg, fun _ => rfl⟩
      · rw [if_neg havg]
        constructor
        · intro h
          exact Option.noConfusion h
        · rintro (h | h)
          · exact absurd h hne
          · exact absurd h havg

/-- A JSON value, as produced by JSON.parse in the browser. -/
inductive JVal where
  | jnull
  | jbool (b : Bool)
  | jnum (q : ℚ)
  | jstr (s : String)
  | jarr (xs : List JVal)
  | jobj (fields : List (String × JVal))

/-- JavaScript truthiness of a JSON value (the test `!parsed.username`
in loadCredentials): null, false, 0 and the empty string are falsy,
every object and array is truthy. -/
def truthy : JVal → Bool
  | .jnull => false
  | .jbool b => b
  | .jnum q => !(decide (q = 0))
  | .jstr s => !(decide (s = ""))
  | .jarr _ => true
  | .jobj _ => true

/-- The credential pair of lib/api.ts. -/
structure BasicCreds where
  username : String
  password : String
deriving DecidableEq, Repr

/-- The JSON value JSON.stringify writes for a `BasicCreds` object; the
later JSON.parse of the stored string yields this same value back. -/
def credsJson (c : BasicCreds) : JVal :=
  .jobj [("username", .jstr c.username), ("password", .jstr c.password)]

/-- The localStorage cell under the key water-tank-creds, seen through
JSON.parse: `none` when the key is absent, `some (.error ())` when the
stored string does not parse as JSON, `some (.ok v)` when it parses to
the value `v`. -/
def StoredCell : Type := Option (Except Unit JVal)

/-- Shallow embedding of `persistCredentials` (lib/api.ts): it overwrites
the cell with the stringified credential object, whatever was there. -/
def persistCredentials (c : BasicCreds) (_cell : StoredCell) : StoredCell :=
  some (.ok (credsJson c))

/-- Reading a property of a parsed JSON value, as JavaScript does: the
first binding of the key in an object, and undefined (modelled `.jnull`,
also falsy) when the key is absent; reading a property of a non-object
either yields undefined or throws (on null), and in `loadCredentials`
both paths end in returning null, so the non-object case is collapsed. -/
def getProp (v : JVal) (key : String) : Option JVal :=
  match v with
  | .jobj fields => fields.lookup key
  | _ => none

/-- Shallow embedding of `loadCredentials` (lib/api.ts): null when the
key is absent; null when the stored string does not parse; otherwise the
parsed object is kept only when both the username and the password
property are truthy, and the pair of those property values is returned. -/
def loadCredentials (cell : StoredCell) : Option (JVal × JVal) :=
  match cell with
  | none => none
  | some (.error _) => none
  | some (.ok v) =>
      match v with
      | .jobj fields =>
          let u := (getProp (.jobj fields) "username").getD .jnull
          let p := (getProp (.jobj fields) "password").getD .jnull
          if truthy u && truthy p then some (u, p) else none
      | _ => none

/-- C9: storing a credential pair with non-empty username and password
and loading it back returns exactly that pair; a loaded pair always has
truthy components, so neither is the empty string; and a missing cell,
an unparsable cell, or a parsed object missing the username property
all load as null. -/
theorem credentials_roundtrip :
    ∀ (c : BasicCreds) (cell cell2 : StoredCell) (u p : JVal),
      (c.username ≠ "" → c.password ≠ "" →
          loadCredentials (persistCredentials c cell)
            = some (.jstr c.username, .jstr c.password))
      ∧ (loadCredentials cell2 = some (u, p) →
          truthy u = true ∧ truthy p = true ∧ u ≠ .jstr "" ∧ p ≠ .jstr "")
      ∧ loadCredentials none = none
      ∧ loadCredentials (some (.error ())) = none
      ∧ (∀ fields : List (String × JVal), fields.lookup "username" = none →
          loadCredentials (some (.ok (.jobj fields))) = none) := by
  intro c cell cell2 u p
  refine ⟨?_, ?_, rfl, rfl, ?_⟩
  · intro hu hp
    unfold loadCredentials persistCredentials credsJson getProp
    simp only [List.lookup]
    have bu : ("username" == "username") = true := by decide
    have bp1 : ("password" == "username") = false := by decide
    have bp : ("password" == "password") = true := by decide
    simp only [bu, bp, bp1, Option.getD_some]
    rw [if_pos (by
      simp only [truthy, Bool.and_eq_true, Bool.not_eq_eq_eq_not, Bool.not_true,
        decide_eq_false_iff_not]
      exact ⟨by simpa using hu, by simpa using hp⟩)]
  · intro h
    match cell2 with
    | none => exact Option.noConfusion h
    | some (.error e) => exact Option.noConfusion h
    | some (.ok v) =>
        match v with
        | .jnull => exact Option.noConfusion h
        | .jbool b => exact Option.noConfusion h
        | .jnum q => exact Option.noConfusion h
        | .jstr s => exact Option.noConfusion h
        | .jarr xs => exact Option.noConfusion h
        | .jobj fields =>
            have h2 :
                (if (truthy ((getProp (JVal.jobj fields) "username").getD .jnull)
                      && truthy ((getProp (JVal.jobj fields) "password").getD .jnull)) = true
                  then some (((getProp (JVal.jobj fields) "username").getD .jnull),
                      ((getProp (JVal.jobj fields) "password").getD .jnull))
                  else none) = some (u, p) := h
            by_cases hc :
                (truthy ((getProp (JVal.jobj fields) "username").getD .jnull)
                  && truthy ((getProp (JVal.jobj fields) "password").getD .jnull)) = true
            · rw [if_pos hc] at h2
              rw [Bool.and_eq_true] at hc
              obtain ⟨hcu, hcp⟩ := hc
              obtain ⟨h3, h4⟩ := Prod.mk.injEq .. ▸ Option.some.inj h2
              rw [← h3, ← h4]
              refine ⟨hcu, hcp, ?_, ?_⟩
              · intro hbad
                rw [hbad] at hcu
                simp [truthy] at hcu
              · intro hbad
                rw [hbad] at hcp
                simp [truthy] at hcp
            · rw [if_neg hc] at h2
              exact Option.noConfusion h2
  · intro fields hmiss
    have hu : getProp (JVal.jobj fields) "username" = none := hmiss
    have hcond :
        (truthy ((getProp (JVal.jobj fields) "username").getD .jnull)
          && truthy ((getProp (JVal.jobj fields) "password").getD .jnull)) = false := by
      rw [hu]
      simp [truthy]
    show (if (truthy ((getProp (JVal.jobj fields) "username").getD .jnull)
          && truthy ((getProp (JVal.jobj fields) "password").getD .jnull)) = true
        then some (((getProp (JVal.jobj fields) "username").getD .jnull),
            ((getProp (JVal.jobj fields) "password").getD .jnull))
        else none) = none
    rw [hcond]
    simp

/-- The issue record of components/Issues.tsx. -/
structure Issue where
  id : String
  title : String
  description : String
  category : String
  timestamp : String
  username : String
  resolved : Bool
deriving DecidableEq, Repr

/-- A default issue, used only as the out-of-range value of `List.getD`
in statements that are guarded by an index bound. -/
def blankIssue : Issue :=
  ⟨"", "", "", "other", "", "", false⟩

/-- Shallow embedding of `toggleResolved` (components/Issues.tsx): map
over the list, negating the resolved flag of the issues whose id
matches and keeping every other issue as it is. -/
def toggleResolved (i : String) (issues : List Issue) : List Issue :=
  issues.map (fun issue =>
    if issue.id = i then { issue with resolved := !issue.resolved } else issue)

/-- C10: `toggleResolved` preserves the length and order of the list;
at a position whose issue id matches, only the resolved flag changes,
and it is negated; at every other position the issue is unchanged. -/
theorem toggleResolved_frame :
    ∀ (i : String) (issues : List Issue) (k : ℕ),
      (toggleResolved i issues).length = issues.length
      ∧ (k < issues.length →
          ((issues.getD k blankIssue).id = i →
              (toggleResolved i issues).getD k blankIssue
                = { issues.getD k blankIssue with
                      resolved := !(issues.getD k blankIssue).resolved })
          ∧ ((issues.getD k blankIssue).id ≠ i →
              (toggleResolved i issues).getD k blankIssue
                = issues.getD k blankIssue)
          ∧ ((toggleResolved i issues).getD k blankIssue).id
              = (issues.getD k blankIssue).id
          ∧ ((toggleResolved i issues).getD k blankIssue).title
              = (issues.getD k blankIssue).title
          ∧ ((toggleResolved i issues).getD k blankIssue).description
              = (issues.getD k blankIssue).description
          ∧ ((toggleResolved i issues).getD k blankIssue).category
              = (issues.getD k blankIssue).category
          ∧ ((toggleResolved i issues).getD k blankIssue).timestamp
              = (issues.getD k blankIssue).timestamp
          ∧ ((toggleResolved i issues).getD k blankIssue).username
              = (issues.getD k blankIssue).username) := by
  intro i issues k
  constructor
  · exact List.length_map _ _
  · intro hk
    have hget : (toggleResolved i issues).getD k blankIssue
        = (if (issues.getD k blankIssue).id = i then
            { issues.getD k blankIssue with
                resolved := !(issues.getD k blankIssue).resolved }
          else issues.getD k blankIssue) := by
      unfold toggleResolved
      rw [List.getD_eq_getElem?_getD, List.getD_eq_getElem?_getD,
        List.getElem?_map, List.getElem?_eq_getElem hk]
      rfl
    by_cases hid : (issues.getD k blankIssue).id = i
    · rw [hget, if_pos hid]
      exact ⟨fun _ => rfl, fun hne => absurd hid hne, rfl, rfl, rfl, rfl, rfl, rfl⟩
    · rw [hget, if_neg hid]
      exact ⟨fun h => absurd h hid, fun _ => rfl, rfl, rfl, rfl, rfl, rfl, rfl⟩

end WaterTank
